import Mathlib

/-!
Verification development for the goutils repository.

Two components are modelled, following the source:

* `Alert`: the DingTalk webhook notifier (message builders, the retry loop
  of Robot.send, the single-shot classification of Robot.doSend, and the
  request signature Robot.calculateSign).
* `Config`: the configuration resolver loadConfig (defaults, environment,
  TOML files and CLI flags merged by precedence).

Go machine integers are modelled as Nat/Int with explicit reductions
modulo 2^32 where 32-bit overflow matters (SHA-256).  Side effects
(HTTP round trips, the filesystem, the environment, process exit on
log.Fatal) are passed in explicitly or reflected in result types.
-/

namespace Alert

/-- Decode result of a webhook HTTP response body, as doSend observes it:
either the errcode/errmsg pair was decoded from JSON, or json.Unmarshal
failed. -/
inductive RespBody
  | fields (errcode : Int) (errmsg : String)
  | malformed
deriving DecidableEq

/-- Outcome of one HTTP round trip as doSend observes it: either the
request itself failed (httpClient.Do or reading the body), or a response
with a status code and a body arrived.  The body is abstracted to its
decode result. -/
inductive HttpOutcome
  | netErr (msg : String)
  | resp (status : Nat) (body : RespBody)
deriving DecidableEq

/-- Error classification of a single doSend call: transport-class errors
(wrapped with fmt.Errorf) versus the DingTalk API error type (the Go
struct Error with Code and Message), which Robot.send never retries. -/
inductive DeliveryError
  | transport (msg : String)
  | api (code : Int) (msg : String)
deriving DecidableEq

/-- Robot.doSend, single delivery attempt (part_007 lines 559-606), given
the observed HTTP outcome: a non-200 status or a network/decode failure is
a transport-class error; a 200 response with nonzero errcode is the API
error; errcode 0 is success.  Error message strings follow the source
formats, with the raw response body abstracted away. -/
def doSend (o : HttpOutcome) : Option DeliveryError :=
  match o with
  | .netErr m => some (.transport ("请求失败: " ++ m))
  | .resp status body =>
    if status ≠ 200 then some (.transport ("HTTP状态码: " ++ toString status))
    else
      match body with
      | .malformed => some (.transport "解析响应失败")
      | .fields c m => if c ≠ 0 then some (.api c m) else none

/-- Model of context.Context for the claims at hand: an optional absolute
deadline (in the same time unit as the retry interval).  The context is
done at time t exactly when the deadline has passed. -/
structure Ctx where
  deadline : Option Nat
deriving DecidableEq

/-- Whether ctx.Done() has fired by time t. -/
def Ctx.doneAt (c : Ctx) (t : Nat) : Bool :=
  match c.deadline with
  | none => false
  | some d => d ≤ t

/-- Whether the select between ctx.Done() and time.After(attempt * interval)
started at time t is won by the context: no wait happens before attempt 0,
and otherwise the context wins when the deadline falls strictly inside the
wait window. -/
def Ctx.hitsDuringWait (c : Ctx) (t attempt interval : Nat) : Bool :=
  if attempt = 0 then false
  else
    match c.deadline with
    | none => false
    | some d => d < t + attempt * interval

/-- Result of Robot.send: success, the context's own error (returned
unwrapped), the DingTalk API error (returned unwrapped), or the final
wrapped failure naming the configured retry count and the last
transport-class error. -/
inductive SendResult
  | ok
  | ctxErr
  | api (code : Int) (msg : String)
  | exhausted (retryCount : Nat) (last : Option DeliveryError)
deriving DecidableEq

/-- Discriminator: is the result the DingTalk API error? -/
def SendResult.isApi : SendResult → Bool
  | .api _ _ => true
  | _ => false

/-- Trace of one Robot.send call: its result, how many doSend attempts
were made, and the list of completed backoff waits in order. -/
structure SendTrace where
  result : SendResult
  attempts : Nat
  waits : List Nat
deriving DecidableEq

/-- Record a completed backoff wait: no wait happens before attempt 0,
otherwise the wait of attempt * interval is prepended to the accumulator. -/
def pushWait (attempt interval : Nat) (waits : List Nat) : List Nat :=
  if attempt = 0 then waits else attempt * interval :: waits

/-- The retry loop of Robot.send (part_007 lines 526-556).  Arguments after
the transport: remaining loop iterations (the Go loop runs for attempt = 0
up to and including retryCount, hence retryCount + 1 iterations), the
current attempt index, the current clock, the accumulated completed waits
(reversed), and lastErr.  Each iteration first polls ctx.Done, then for
attempt > 0 waits attempt * interval racing the context, then calls doSend;
an API-class error returns immediately, a transport-class error is recorded
and retried. -/
def sendLoop (rc interval : Nat) (ctx : Ctx) (tr : Nat → HttpOutcome) :
    Nat → Nat → Nat → List Nat → Option DeliveryError → SendTrace
  | 0, attempt, _t, waits, lastErr => ⟨.exhausted rc lastErr, attempt, waits.reverse⟩
  | remaining + 1, attempt, t, waits, _lastErr =>
    if ctx.doneAt t then ⟨.ctxErr, attempt, waits.reverse⟩
    else if ctx.hitsDuringWait t attempt interval then ⟨.ctxErr, attempt, waits.reverse⟩
    else
      match doSend (tr attempt) with
      | none => ⟨.ok, attempt + 1, (pushWait attempt interval waits).reverse⟩
      | some (.api c m) => ⟨.api c m, attempt + 1, (pushWait attempt interval waits).reverse⟩
      | some (.transport m) =>
        sendLoop rc interval ctx tr remaining (attempt + 1) (t + attempt * interval)
          (pushWait attempt interval waits) (some (.transport m))

/-- DefaultRetryCount (part_007 line 61). -/
def DefaultRetryCount : Nat := 3

/-- DefaultRetryInterval, one second; the model's time unit is one second
(part_007 line 64). -/
def DefaultRetryInterval : Nat := 1

/-- The Robot configuration fields relevant to the claims: retry count,
base retry interval, and the signing secret. -/
structure Robot where
  retryCount : Nat
  retryInterval : Nat
  signSecret : String

/-- Robot.send (part_007 lines 526-556): run the retry loop from attempt 0
at time 0; the transport maps each attempt index to the HTTP outcome that
attempt observes. -/
def Robot.send (r : Robot) (ctx : Ctx) (tr : Nat → HttpOutcome) : SendTrace :=
  sendLoop r.retryCount r.retryInterval ctx tr (r.retryCount + 1) 0 0 [] none

/-- JSON values, for the wire shape of messages as produced by Go's
json.Marshal.  Objects are ordered field lists: Go marshals struct fields
in declaration order and map keys in sorted order. -/
inductive Json
  | null
  | bool (b : Bool)
  | str (s : String)
  | num (n : Int)
  | arr (xs : List Json)
  | obj (fields : List (String × Json))

/-- Look up a field of a JSON object. -/
def Json.getField : Json → String → Option Json
  | .obj fields, k => fields.lookup k
  | _, _ => none

/-- AtInfo (part_007 lines 218-222): the @-target configuration. -/
structure AtInfo where
  atMobiles : List String
  atUserIds : List String
  isAtAll : Bool
deriving DecidableEq

/-- json.Marshal of AtInfo: all three fields carry omitempty, so an empty
list or a false flag is omitted; fields appear in struct declaration
order. -/
def AtInfo.toJson (a : AtInfo) : Json :=
  .obj ((if a.atMobiles = [] then [] else [("atMobiles", .arr (a.atMobiles.map .str))]) ++
        (if a.atUserIds = [] then [] else [("atUserIds", .arr (a.atUserIds.map .str))]) ++
        (if a.isAtAll then [("isAtAll", .bool true)] else []))

/-- TextBuilder (part_007 lines 229-233): content plus the accumulated
@-target. -/
structure TextBuilder where
  content : String
  atInfo : AtInfo
deriving DecidableEq

/-- Robot.Text (part_007 lines 240-242): fresh builder with an empty
AtInfo. -/
def TextBuilder.mk0 (content : String) : TextBuilder :=
  ⟨content, ⟨[], [], false⟩⟩

/-- TextBuilder.AtMobiles (part_007 lines 245-248): appends. -/
def TextBuilder.atMobilesAdd (b : TextBuilder) (mobiles : List String) : TextBuilder :=
  { b with atInfo := { b.atInfo with atMobiles := b.atInfo.atMobiles ++ mobiles } }

/-- TextBuilder.AtUserIds (part_007 lines 251-254): appends. -/
def TextBuilder.atUserIdsAdd (b : TextBuilder) (userIds : List String) : TextBuilder :=
  { b with atInfo := { b.atInfo with atUserIds := b.atInfo.atUserIds ++ userIds } }

/-- TextBuilder.AtAll (part_007 lines 257-260): sets the flag. -/
def TextBuilder.atAll (b : TextBuilder) : TextBuilder :=
  { b with atInfo := { b.atInfo with isAtAll := true } }

/-- The JSON body sent by TextBuilder.SendWithContext (part_007 lines
268-274); the three map keys appear in Go's sorted key order. -/
def TextBuilder.messageJson (b : TextBuilder) : Json :=
  .obj [("at", b.atInfo.toJson),
        ("msgtype", .str "text"),
        ("text", .obj [("content", .str b.content)])]

/-- Button (part_007 lines 397-400). -/
structure Button where
  title : String
  actionURL : String
deriving DecidableEq

/-- json.Marshal of a Button. -/
def Button.toJson (b : Button) : Json :=
  .obj [("title", .str b.title), ("actionURL", .str b.actionURL)]

/-- ActionCardBuilder (part_007 lines 386-394). -/
structure ActionCardBuilder where
  title : String
  text : String
  btnOrientation : String
  singleTitle : String
  singleURL : String
  buttons : List Button
deriving DecidableEq

/-- Robot.ActionCard (part_007 lines 415-423): orientation "0", no single
button, empty button list. -/
def ActionCardBuilder.mk0 (title text : String) : ActionCardBuilder :=
  ⟨title, text, "0", "", "", []⟩

/-- ActionCardBuilder.SingleButton (part_007 lines 426-430). -/
def ActionCardBuilder.singleButton (b : ActionCardBuilder) (title actionURL : String) :
    ActionCardBuilder :=
  { b with singleTitle := title, singleURL := actionURL }

/-- ActionCardBuilder.AddButton (part_007 lines 433-436). -/
def ActionCardBuilder.addButton (b : ActionCardBuilder) (title actionURL : String) :
    ActionCardBuilder :=
  { b with buttons := b.buttons ++ [⟨title, actionURL⟩] }

/-- ActionCardBuilder.Horizontal (part_007 lines 439-442). -/
def ActionCardBuilder.horizontal (b : ActionCardBuilder) : ActionCardBuilder :=
  { b with btnOrientation := "1" }

/-- The actionCard object built by ActionCardBuilder.SendWithContext
(part_007 lines 456-471): a non-empty singleTitle selects single-button
mode (singleTitle and singleURL, no btns); otherwise a non-empty button
list yields btns; otherwise neither.  Keys in Go's sorted map-key order. -/
def ActionCardBuilder.cardJson (b : ActionCardBuilder) : Json :=
  .obj ([("btnOrientation", .str b.btnOrientation)] ++
        (if b.singleTitle ≠ "" then
           [("singleTitle", .str b.singleTitle), ("singleURL", .str b.singleURL)]
         else if b.buttons.length > 0 then
           [("btns", .arr (b.buttons.map Button.toJson))]
         else []) ++
        [("text", .str b.text), ("title", .str b.title)])

/-- The JSON body sent by ActionCardBuilder.SendWithContext. -/
def ActionCardBuilder.messageJson (b : ActionCardBuilder) : Json :=
  .obj [("actionCard", b.cardJson), ("msgtype", .str "actionCard")]

end Alert

namespace Crypto

/-- Reduce to a 32-bit word. -/
def w32 (n : Nat) : Nat := n % 2 ^ 32

/-- 32-bit addition. -/
def add32 (a b : Nat) : Nat := (a + b) % 2 ^ 32

/-- Right rotation of a 32-bit word by n bits (0 < n < 32): the low n bits
wrap to the top. -/
def rotr32 (n x : Nat) : Nat := (x / 2 ^ n + x % 2 ^ n * 2 ^ (32 - n)) % 2 ^ 32

/-- Logical right shift. -/
def shr32 (n x : Nat) : Nat := x / 2 ^ n

/-- Bitwise complement of a 32-bit word. -/
def not32 (x : Nat) : Nat := Nat.xor x (2 ^ 32 - 1)

/-- SHA-256 Ch function. -/
def ch32 (e f g : Nat) : Nat := Nat.xor (Nat.land e f) (Nat.land (not32 e) g)

/-- SHA-256 Maj function. -/
def maj32 (a b c : Nat) : Nat :=
  Nat.xor (Nat.land a b) (Nat.xor (Nat.land a c) (Nat.land b c))

/-- SHA-256 Σ0. -/
def bigSigma0 (x : Nat) : Nat := Nat.xor (rotr32 2 x) (Nat.xor (rotr32 13 x) (rotr32 22 x))

/-- SHA-256 Σ1. -/
def bigSigma1 (x : Nat) : Nat := Nat.xor (rotr32 6 x) (Nat.xor (rotr32 11 x) (rotr32 25 x))

/-- SHA-256 σ0. -/
def smallSigma0 (x : Nat) : Nat := Nat.xor (rotr32 7 x) (Nat.xor (rotr32 18 x) (shr32 3 x))

/-- SHA-256 σ1. -/
def smallSigma1 (x : Nat) : Nat := Nat.xor (rotr32 17 x) (Nat.xor (rotr32 19 x) (shr32 10 x))

/-- The SHA-256 round constants. -/
def sha256K : Array Nat :=
  #[1116352408, 1899447441, 3049323471, 3921009573, 961987163, 1508970993,
    2453635748, 2870763221, 3624381080, 310598401, 607225278, 1426881987,
    1925078388, 2162078206, 2614888103, 3248222580, 3835390401, 4022224774,
    264347078, 604807628, 770255983, 1249150122, 1555081692, 1996064986,
    2554220882, 2821834349, 2952996808, 3210313671, 3336571891, 3584528711,
    113926993, 338241895, 666307205, 773529912, 1294757372, 1396182291,
    1695183700, 1986661051, 2177026350, 2456956037, 2730485921, 2820302411,
    3259730800, 3345764771, 3516065817, 3600352804, 4094571909, 275423344,
    430227734, 506948616, 659060556, 883997877, 958139571, 1322822218,
    1537002063, 1747873779, 1955562222, 2024104815, 2227730452, 2361852424,
    2428436474, 2756734187, 3204031479, 3329325298]

/-- The SHA-256 initial hash state. -/
def sha256H0 : List Nat :=
  [1779033703, 3144134277, 1013904242, 2773480762,
   1359893119, 2600822924, 528734635, 1541459225]

/-- Big-endian bytes of a number, fixed width. -/
def toBytesBE : Nat → Nat → List Nat
  | 0, _ => []
  | n + 1, v => toBytesBE n (v / 256) ++ [v % 256]

/-- Group bytes into big-endian 32-bit words (length a multiple of 4). -/
def bytesToWords : List Nat → List Nat
  | b0 :: b1 :: b2 :: b3 :: rest =>
    (b0 * 2 ^ 24 + b1 * 2 ^ 16 + b2 * 2 ^ 8 + b3) :: bytesToWords rest
  | _ => []

/-- One step of the message-schedule extension: with t words built so far,
append word t of the schedule. -/
def scheduleStep (w : Array Nat) : Array Nat :=
  let t := w.size
  w.push (add32 (add32 (smallSigma1 (w.getD (t - 2) 0)) (w.getD (t - 7) 0))
               (add32 (smallSigma0 (w.getD (t - 15) 0)) (w.getD (t - 16) 0)))

/-- The full 64-word message schedule of one block. -/
def schedule (block : List Nat) : Array Nat :=
  (List.range 48).foldl (fun w _ => scheduleStep w) (bytesToWords block).toArray

/-- One SHA-256 compression round on the eight-word working state. -/
def sha256Round (w : Array Nat) (st : List Nat) (t : Nat) : List Nat :=
  match st with
  | [a, b, c, d, e, f, g, h] =>
    let t1 := add32 h (add32 (bigSigma1 e)
                (add32 (ch32 e f g) (add32 (sha256K.getD t 0) (w.getD t 0))))
    let t2 := add32 (bigSigma0 a) (maj32 a b c)
    [add32 t1 t2, a, b, c, add32 d t1, e, f, g]
  | other => other

/-- Process one 64-byte block. -/
def processBlock (st : List Nat) (block : List Nat) : List Nat :=
  let w := schedule block
  let st' := (List.range 64).foldl (sha256Round w) st
  List.zipWith add32 st st'

/-- SHA-256 padding: append 0x80, zeros to 56 mod 64, and the 64-bit
big-endian bit length. -/
def sha256Pad (msg : List Nat) : List Nat :=
  let l := msg.length
  msg ++ [0x80] ++ List.replicate ((64 + 55 - l % 64) % 64) 0 ++ toBytesBE 8 (8 * l)

/-- Split into 64-byte chunks, with the list length as recursion fuel. -/
def chunksGo : Nat → List Nat → List (List Nat)
  | 0, _ => []
  | fuel + 1, l => if l = [] then [] else l.take 64 :: chunksGo fuel (l.drop 64)

/-- The 64-byte blocks of a padded message. -/
def chunks (l : List Nat) : List (List Nat) := chunksGo l.length l

/-- SHA-256 of a byte list. -/
def sha256 (msg : List Nat) : List Nat :=
  (((chunks (sha256Pad msg)).foldl processBlock sha256H0).map (toBytesBE 4)).flatten

/-- HMAC-SHA256 (FIPS 198, as implemented by crypto/hmac with
crypto/sha256: block size 64; longer keys are first hashed). -/
def hmacSha256 (key msg : List Nat) : List Nat :=
  let k0 := if 64 < key.length then sha256 key else key
  let k1 := k0 ++ List.replicate (64 - k0.length) 0
  let ipad := k1.map (Nat.xor 0x36)
  let opad := k1.map (Nat.xor 0x5c)
  sha256 (opad ++ sha256 (ipad ++ msg))

/-- UTF-8 encoding of one character, as Go's []byte(string) produces. -/
def utf8Char (ch : Char) : List Nat :=
  let c := ch.toNat
  if c < 0x80 then [c]
  else if c < 0x800 then [0xc0 + c / 64, 0x80 + c % 64]
  else if c < 0x10000 then [0xe0 + c / 4096, 0x80 + c / 64 % 64, 0x80 + c % 64]
  else [0xf0 + c / 262144, 0x80 + c / 4096 % 64, 0x80 + c / 64 % 64, 0x80 + c % 64]

/-- UTF-8 bytes of a string. -/
def utf8Bytes (s : String) : List Nat := (s.toList.map utf8Char).flatten

/-- The standard base64 alphabet. -/
def base64Table : List Char :=
  "ABCDEFGHIJKLMNOPQRSTUVWXYZabcdefghijklmnopqrstuvwxyz0123456789+/".toList

/-- The base64 character of a 6-bit value. -/
def b64c (n : Nat) : Char := base64Table.getD n '?'

/-- Base64 encoding, three input bytes to four output characters, with
'=' padding (encoding/base64 StdEncoding). -/
def b64Go : List Nat → List Char
  | b0 :: b1 :: b2 :: rest =>
    let n := b0 * 65536 + b1 * 256 + b2
    b64c (n / 2 ^ 18) :: b64c (n / 2 ^ 12 % 64) :: b64c (n / 2 ^ 6 % 64) :: b64c (n % 64) ::
      b64Go rest
  | [b0, b1] =>
    let n := b0 * 65536 + b1 * 256
    [b64c (n / 2 ^ 18), b64c (n / 2 ^ 12 % 64), b64c (n / 2 ^ 6 % 64), '=']
  | [b0] =>
    let n := b0 * 65536
    [b64c (n / 2 ^ 18), b64c (n / 2 ^ 12 % 64), '=', '=']
  | [] => []

/-- encoding/base64 StdEncoding.EncodeToString. -/
def base64Encode (bs : List Nat) : String := String.mk (b64Go bs)

end Crypto

namespace Alert

/-- Robot.calculateSign (part_007 lines 628-635): the string
"timestamp\nsecret" is HMAC-SHA256-signed with the secret as key and the
digest base64-encoded.  The Go hash.Write error path cannot occur and is
not modelled. -/
def Robot.calculateSign (r : Robot) (timestamp : Int) : String :=
  let stringToSign := toString timestamp ++ "\n" ++ r.signSecret
  Crypto.base64Encode
    (Crypto.hmacSha256 (Crypto.utf8Bytes r.signSecret) (Crypto.utf8Bytes stringToSign))

/-- The signature as the spec describes it: the base64 encoding of the
HMAC-SHA256 digest, keyed by the secret, of the string
"timestamp\nsecret". -/
def signSpec (secret : String) (timestamp : Int) : String :=
  Crypto.base64Encode
    (Crypto.hmacSha256 (Crypto.utf8Bytes secret)
      (Crypto.utf8Bytes (toString timestamp ++ "\n" ++ secret)))

end Alert

namespace Config

/-- Values held by the koanf store.  The model restricts schema fields to
Go string fields (the code also supports int, bool and float fields, whose
flow through the precedence merge is identical); the reserved config flag
holds a string slice. -/
inductive Value
  | str (s : String)
  | strList (xs : List String)
deriving DecidableEq

/-- One schema field: the Go struct field name, its koanf tag (the lookup
key), and its default value (the field's initial content). -/
structure Field where
  name : String
  koanf : String
  deflt : String
deriving DecidableEq

/-- The merged key-value store (a koanf instance with flat keys). -/
def Store := String → Option Value

/-- Setting a key overrides its previous value. -/
def Store.set (s : Store) (k : String) (v : Value) : Store :=
  fun k' => if k' = k then some v else s k'

/-- The empty store. -/
def Store.empty : Store := fun _ => none

/-- Log events relevant to the claims: pathIsFile's warning on a
directory, and loadConfig's skip notices for a missing config file at
info level (default path) or warn level (any other path). -/
inductive LogEvent
  | warnIsDir (path : String)
  | infoNotFound (file : String)
  | warnNotFound (file : String)
deriving DecidableEq

/-- What the filesystem holds at a path: nothing, a directory, or a
regular file with its parsed TOML content (none when the TOML does not
parse, which loadConfig treats as fatal). -/
inductive FStat
  | missing
  | dir
  | file (toml : Option (List (String × Value)))
deriving DecidableEq

/-- Whether the path stats as a regular file. -/
def FStat.isFile : FStat → Bool
  | .file _ => true
  | _ => false

/-- The filesystem as loadConfig observes it. -/
def FileSystem := String → FStat

/-- DEFAULT_CONFIG (config.go line 20). -/
def DEFAULT_CONFIG : String := "config.toml"

/-- pathIsFile (config.go lines 23-35): false with a warning for a
directory, false silently when stat fails, true for a regular file. -/
def pathIsFile (fs : FileSystem) (p : String) : Bool × List LogEvent :=
  match fs p with
  | .missing => (false, [])
  | .dir => (false, [.warnIsDir p])
  | .file _ => (true, [])

/-- Split a string on a separator character (Go strings.Split with a
one-character separator), carried out on the character list so that it
evaluates by kernel reduction. -/
def splitOnCharGo (sep : Char) : List Char → List Char → List String
  | [], acc => [String.mk acc.reverse]
  | c :: rest, acc =>
    if c = sep then String.mk acc.reverse :: splitOnCharGo sep rest []
    else splitOnCharGo sep rest (c :: acc)

/-- Split a string on a separator character. -/
def splitOnChar (sep : Char) (s : String) : List String :=
  splitOnCharGo sep s.toList []

/-- Go strings.ToUpper, carried out on the character list. -/
def strToUpper (s : String) : String := String.mk (s.toList.map Char.toUpper)

/-- Go path.IsAbs: the path starts with a slash. -/
def pathIsAbs (p : String) : Bool :=
  match p.toList with
  | '/' :: _ => true
  | _ => false

/-- Go path.Join, modulo path cleaning (no claim depends on cleaning). -/
def pathJoin (a b : String) : String := a ++ "/" ++ b

/-- The result of the parse: which schema-field flags the user explicitly
set (pflag's Changed) and with what value, and likewise for the reserved
config string-slice flag. -/
structure Flags where
  set : String → Option String
  configSet : Option (List String)

/-- The fresh flag set: nothing changed. -/
def Flags.empty : Flags := ⟨fun _ => none, none⟩

/-- Record an explicit value for a schema-field flag. -/
def Flags.setVal (fl : Flags) (k v : String) : Flags :=
  { fl with set := fun k' => if k' = k then some v else fl.set k' }

/-- Record an explicit value for the config string-slice flag: pflag's
StringSlice replaces the default on the first explicit set and appends on
later ones, splitting each value on commas. -/
def Flags.setConfig (fl : Flags) (v : String) : Flags :=
  { fl with configSet := some (fl.configSet.getD [] ++ splitOnChar ',' v) }

/-- Split an argument body at its first '=' (pflag's name=value form):
the name characters, and the value characters when an '=' is present. -/
def splitEq : List Char → List Char × Option (List Char)
  | [] => ([], none)
  | '=' :: rest => ([], some rest)
  | c :: rest =>
    let (n, v) := splitEq rest
    (c :: n, v)

/-- Classify one argument: a long flag yields its name and, for the
name=value form, its inline value; anything else is a positional
argument. -/
def argNameVal (a : String) : Option (String × Option String) :=
  match a.toList with
  | '-' :: '-' :: body =>
    match splitEq body with
    | (nmChars, some vChars) => some (String.mk nmChars, some (String.mk vChars))
    | (nmChars, none) => some (String.mk nmChars, none)
  | _ => none

/-- f.Parse (config.go line 115) for the flag set registered by
loadConfig: long flags only, in the forms name value and name=value,
where name is the config flag or a schema-field key.  Value-taking flags
consume the following argument.  Positional arguments are skipped
(pflag permits interspersed arguments); an unknown flag makes pflag
return an error, which loadConfig ignores, leaving the remaining
arguments unparsed. -/
def parseLoop (keys : List String) : List String → Flags → Flags
  | [], fl => fl
  | a :: rest, fl =>
    match argNameVal a with
    | some (nm, some v) =>
      if nm = "config" then parseLoop keys rest (fl.setConfig v)
      else if nm ∈ keys then parseLoop keys rest (fl.setVal nm v)
      else fl
    | some (nm, none) =>
      if nm = "config" then
        match rest with
        | v :: rest' => parseLoop keys rest' (fl.setConfig v)
        | [] => fl
      else if nm ∈ keys then
        match rest with
        | v :: rest' => parseLoop keys rest' (fl.setVal nm v)
        | [] => fl
      else fl
    | none => parseLoop keys rest fl

/-- The koanf-tag validity check of loadConfig (config.go lines 71-76):
a missing koanf tag or the tag "config" is fatal. -/
def fieldsOk (fields : List Field) : Bool :=
  fields.all fun f => !(f.koanf == "") && !(f.koanf == "config")

/-- The env-name-to-key table (config.go lines 63-64 and 77): the
reserved CONFIG variable maps to the config key, and each field's
upper-cased Go name maps to its koanf tag.  Go builds a map; the model
keeps the insertion list, which coincides with the map for schemas whose
upper-cased names are distinct and differ from CONFIG. -/
def envToKey (fields : List Field) : List (String × String) :=
  ("CONFIG", "config") :: fields.map fun f => (strToUpper f.name, f.koanf)

/-- k.Load(structs.Provider(config)) (config.go line 96): seed the store
with every field's default. -/
def seedDefaults (fields : List Field) (s : Store) : Store :=
  fields.foldl (fun s f => s.set f.koanf (.str f.deflt)) s

/-- k.Load(env.Provider) (config.go lines 103-113): for each table entry
whose environment variable is set, its value overrides the mapped key.
The provider looks every environment variable up in the table; iterating
the table instead is equivalent for tables with distinct names. -/
def applyEnv (env : String → Option String) : List (String × String) → Store → Store
  | [], s => s
  | (n, key) :: rest, s =>
    applyEnv env rest
      (match env n with
       | some v => s.set key (.str v)
       | none => s)

/-- Overlay a list of parsed TOML pairs onto the store (k.Load of a file
provider, config.go line 167). -/
def applyPairs : List (String × Value) → Store → Store
  | [], s => s
  | (k, v) :: rest, s => applyPairs rest (s.set k v)

/-- k.String("config"): koanf renders a string value as itself; a string
slice (or any non-string) renders as the empty string via cast.ToString. -/
def koanfString : Value → String
  | .str s => s
  | .strList _ => ""

/-- The effective config file list (config.go lines 117-137): start from
the config flag's current value (its registered default when never set);
when the literal token --config does not occur among the process
arguments, an existing config key in the store (set via the CONFIG
environment variable) overrides it, split on commas. -/
def effectiveConfigFiles (fl : Flags) (osArgs : List String) (s : Store) : List String :=
  let cFiles := fl.configSet.getD [DEFAULT_CONFIG]
  if "--config" ∈ osArgs then cFiles
  else
    match s "config" with
    | some v => splitOnChar ',' (koanfString v)
    | none => cFiles

/-- Resolution of a relative candidate path (config.go lines 140-156):
first rewrite to the working-directory join when that is a regular file,
then rewrite the (possibly already rewritten) path to the
executable-directory join when that is a regular file.  Errors from
os.Getwd and os.Executable are not modelled. -/
def resolvePath (fs : FileSystem) (cwd exeDir : String) (c : String) :
    String × List LogEvent :=
  if pathIsAbs c then (c, [])
  else
    let r1 := pathIsFile fs (pathJoin cwd c)
    let c1 := if r1.1 then pathJoin cwd c else c
    let r2 := pathIsFile fs (pathJoin exeDir c1)
    let c2 := if r2.1 then pathJoin exeDir c1 else c1
    (c2, r1.2 ++ r2.2)

/-- The skip notice for a candidate that is not a regular file
(config.go lines 158-165): info level for the default path, warn level
otherwise. -/
def skipEvent (c : String) : LogEvent :=
  if c = DEFAULT_CONFIG then .infoNotFound c else .warnNotFound c

/-- The config file loop (config.go lines 139-172): resolve each
candidate, skip it with a notice when it is not a regular file, overlay
its parsed TOML when it is, and die (none) when the TOML does not
parse. -/
def applyFiles (fs : FileSystem) (cwd exeDir : String) :
    List String → Store → List LogEvent → Option Store × List LogEvent
  | [], s, logs => (some s, logs)
  | c :: rest, s, logs =>
    let r := resolvePath fs cwd exeDir c
    let p := pathIsFile fs r.1
    if p.1 then
      match fs r.1 with
      | .file (some pairs) =>
        applyFiles fs cwd exeDir rest (applyPairs pairs s) (logs ++ r.2 ++ p.2)
      | _ => (none, logs ++ r.2 ++ p.2)
    else
      applyFiles fs cwd exeDir rest s (logs ++ r.2 ++ p.2 ++ [skipEvent r.1])

/-- The per-field part of k.Load(posflag.Provider(f, ".", k))
(config.go line 180): a flag the user explicitly set overlays its value;
a flag at its default only fills its key when the store does not already
hold it. -/
def applyFieldFlags (fl : Flags) : List Field → Store → Store
  | [], s => s
  | f :: rest, s =>
    applyFieldFlags fl rest
      (match fl.set f.koanf with
       | some v => s.set f.koanf (.str v)
       | none => if (s f.koanf).isSome then s else s.set f.koanf (.str f.deflt))

/-- k.Load(posflag.Provider(f, ".", k)) (config.go line 180) over the
whole flag set: the reserved config slice flag followed by the schema
fields (the provider visits flags in name order; the order is immaterial
for distinct keys). -/
def applyPosflag (fields : List Field) (fl : Flags) (s : Store) : Store :=
  let s1 :=
    match fl.configSet with
    | some xs => s.set "config" (.strList xs)
    | none => if (s "config").isSome then s else s.set "config" (.strList [DEFAULT_CONFIG])
  applyFieldFlags fl fields s1

/-- k.Unmarshal (config.go line 185): project the store back onto the
fields; a key missing from the store leaves the field's default (for
schema fields the key is always present once defaults are seeded). -/
def unmarshalFields (fields : List Field) (s : Store) : List (String × Value) :=
  fields.map fun f => (f.koanf, (s f.koanf).getD (.str f.deflt))

/-- The outcome of loadConfig: the resolved (key, value) pairs in field
order, or none when the process dies via log.Fatal; plus the log events
of the file loop. -/
structure LoadResult where
  conf : Option (List (String × Value))
  logs : List LogEvent

/-- loadConfig (config.go lines 43-188).  Inputs: the schema fields (the
reflection pass over the config struct), the environment, the argument
list handed to f.Parse (systemArgs), the full process argument list
os.Args (scanned for the literal token --config at lines 123-129), the
filesystem, and the working and executable directories.  Pipeline: check
tags, seed defaults, overlay environment variables, parse flags, compute
the effective file list, overlay existing files, re-overlay explicitly
set flags, and unmarshal. -/
def loadConfig (fields : List Field) (env : String → Option String)
    (systemArgs osArgs : List String) (fs : FileSystem) (cwd exeDir : String) :
    LoadResult :=
  if !fieldsOk fields then ⟨none, []⟩
  else
    let s0 := seedDefaults fields Store.empty
    let s1 := applyEnv env (envToKey fields) s0
    let fl := parseLoop (fields.map Field.koanf) systemArgs Flags.empty
    let cFiles := effectiveConfigFiles fl osArgs s1
    match applyFiles fs cwd exeDir cFiles s1 [] with
    | (none, logs) => ⟨none, logs⟩
    | (some s2, logs) =>
      let s3 := applyPosflag fields fl s2
      ⟨some (unmarshalFields fields s3), logs⟩

/-- LoadConfig (config.go lines 38-40): loadConfig on os.Args with the
program name dropped. -/
def LoadConfig (fields : List Field) (env : String → Option String)
    (osArgs : List String) (fs : FileSystem) (cwd exeDir : String) : LoadResult :=
  loadConfig fields env (osArgs.drop 1) osArgs fs cwd exeDir

/-- A well-formed schema: koanf tags are present, are not the reserved
key config, contain no '=' (which the flag syntax could not express), and
are distinct; upper-cased field names are distinct and none collides with
the reserved CONFIG variable. -/
structure WF (fields : List Field) : Prop where
  tagsOk : ∀ f ∈ fields, f.koanf ≠ "" ∧ f.koanf ≠ "config"
  tagsNoEq : ∀ f ∈ fields, '=' ∉ f.koanf.toList
  tagsNodup : (fields.map Field.koanf).Nodup
  namesNodup : (fields.map fun f => strToUpper f.name).Nodup
  namesNotConfig : ∀ f ∈ fields, strToUpper f.name ≠ "CONFIG"

/-- The value the spec's precedence law assigns to a field, given which
sources define its key: the highest-precedence source that defines it
wins, in the order CommandLine > File > Environment > Defaults. -/
def precedenceValue (deflt : String) (eo : Option String) (fo : Option Value)
    (co : Option String) : Value :=
  match co with
  | some v => .str v
  | none =>
    match fo with
    | some v => v
    | none =>
      match eo with
      | some v => .str v
      | none => .str deflt

end Config

namespace Alert

/-- The attempt counter of the loop never exceeds the starting attempt
index plus the remaining iteration budget. -/
theorem sendLoop_attempts_le (rc interval : Nat) (ctx : Ctx) (tr : Nat → HttpOutcome) :
    ∀ remaining attempt t waits lastErr,
      (sendLoop rc interval ctx tr remaining attempt t waits lastErr).attempts ≤
        attempt + remaining := by
  intro remaining
  induction remaining with
  | zero => intro attempt t waits lastErr; simp [sendLoop]
  | succ n ih =>
    intro attempt t waits lastErr
    rw [sendLoop]
    split
    · show attempt ≤ attempt + (n + 1); omega
    · split
      · show attempt ≤ attempt + (n + 1); omega
      · split
        · show attempt + 1 ≤ attempt + (n + 1); omega
        · show attempt + 1 ≤ attempt + (n + 1); omega
        · rename_i m heq
          have := ih (attempt + 1) (t + attempt * interval)
            (pushWait attempt interval waits)
            (some (.transport m))
          omega

/-- Every attempt made strictly before the last one returned a
transport-class error: those are the only outcomes the loop retries. -/
theorem sendLoop_retried_transport (rc interval : Nat) (ctx : Ctx) (tr : Nat → HttpOutcome) :
    ∀ remaining attempt t waits lastErr k, attempt ≤ k →
      k + 1 < (sendLoop rc interval ctx tr remaining attempt t waits lastErr).attempts →
      ∃ s, doSend (tr k) = some (.transport s) := by
  intro remaining
  induction remaining with
  | zero =>
    intro attempt t waits lastErr k hk habs
    simp only [sendLoop] at habs
    omega
  | succ n ih =>
    intro attempt t waits lastErr k hk habs
    rw [sendLoop] at habs
    revert habs
    split
    · intro habs; have h : k + 1 < attempt := habs; omega
    · split
      · intro habs; have h : k + 1 < attempt := habs; omega
      · split
        · intro habs; have h : k + 1 < attempt + 1 := habs; omega
        · intro habs; have h : k + 1 < attempt + 1 := habs; omega
        · rename_i m heq
          intro habs
          rcases Nat.eq_or_lt_of_le hk with heqk | hlt
          · exact ⟨m, heqk ▸ heq⟩
          · exact ih (attempt + 1) (t + attempt * interval)
              (pushWait attempt interval waits)
              (some (.transport m)) k hlt habs

/-- C3 counterexample: with the retry count configured to 3 (the default)
and a transport that always fails, Robot.send makes 4 attempts, not at
most 3: the configured count bounds the retries, not the attempts. -/
theorem claim_C3_counterexample :
    (Robot.send ⟨3, 1, ""⟩ ⟨none⟩ fun _ => .netErr "down").attempts = 4 ∧
    ¬ (Robot.send ⟨3, 1, ""⟩ ⟨none⟩ fun _ => .netErr "down").attempts ≤ 3 := by
  decide

/-- C3 (amended): Robot.send makes at most retryCount + 1 attempts — the
configured retry count (default 3) bounds the retries after the first
attempt, so the default allows up to 4 attempts and 0 means exactly one
attempt and no retry; with retry count 3 and a transport that fails twice
then succeeds, send succeeds after exactly 3 attempts, waiting
n * base_interval between attempt n and attempt n + 1 (here the two
completed waits 1 * interval and 2 * interval). -/
theorem claim_C3_amended (rc interval : Nat) (secret : String) (ctx : Ctx)
    (tr trTwice : Nat → HttpOutcome) (m0 m1 : String)
    (h0 : doSend (trTwice 0) = some (.transport m0))
    (h1 : doSend (trTwice 1) = some (.transport m1))
    (h2 : doSend (trTwice 2) = none) :
    (Robot.send ⟨rc, interval, secret⟩ ctx tr).attempts ≤ rc + 1 ∧
    (Robot.send ⟨0, interval, secret⟩ ⟨none⟩ tr).attempts = 1 ∧
    Robot.send ⟨3, interval, secret⟩ ⟨none⟩ trTwice =
      ⟨.ok, 3, [1 * interval, 2 * interval]⟩ := by
  refine ⟨?_, ?_, ?_⟩
  · have := sendLoop_attempts_le rc interval ctx tr (rc + 1) 0 0 [] none
    simpa [Robot.send] using this
  · cases hds : doSend (tr 0) with
    | none => simp [Robot.send, sendLoop, Ctx.doneAt, Ctx.hitsDuringWait, hds]
    | some e =>
      cases e with
      | api c m => simp [Robot.send, sendLoop, Ctx.doneAt, Ctx.hitsDuringWait, hds]
      | transport m => simp [Robot.send, sendLoop, Ctx.doneAt, Ctx.hitsDuringWait, hds]
  · simp [Robot.send, sendLoop, Ctx.doneAt, Ctx.hitsDuringWait, pushWait, h0, h1, h2]

/-- C3 witness: the amended claim at retry count 3, interval 5, and a
transport failing twice then succeeding. -/
theorem claim_C3_witness :
    Robot.send ⟨3, 5, ""⟩ ⟨none⟩
        (fun n => if n < 2 then .netErr "boom" else .resp 200 (.fields 0 "ok")) =
      ⟨.ok, 3, [1 * 5, 2 * 5]⟩ :=
  (claim_C3_amended 3 5 "" ⟨none⟩
    (fun n => if n < 2 then .netErr "boom" else .resp 200 (.fields 0 "ok"))
    (fun n => if n < 2 then .netErr "boom" else .resp 200 (.fields 0 "ok"))
    ("请求失败: " ++ "boom") ("请求失败: " ++ "boom")
    (by decide) (by decide) (by decide)).2.2

/-- C5 counterexample: a delivery that always gets a 2xx (201) response
with nonzero errcode is treated as a transport-class failure, not an
API-class error — with retry count 1 it is retried (2 attempts) and the
result is not the API error; the code accepts only status 200. -/
theorem claim_C5_counterexample :
    (Robot.send ⟨1, 1, ""⟩ ⟨none⟩ fun _ => .resp 201 (.fields 5 "oops")).attempts = 2 ∧
    (Robot.send ⟨1, 1, ""⟩ ⟨none⟩ fun _ => .resp 201 (.fields 5 "oops")).result.isApi
      = false := by
  decide

/-- C5 (amended): for a delivery whose 200 OK response decodes with a
nonzero errcode, send returns the API error with that code and message
immediately, after exactly 1 attempt and no wait, regardless of the
configured retry count; and in any run every attempt before the last one
failed with a transport-class error — only transport-class failures are
retried. -/
theorem claim_C5_amended (rc interval : Nat) (secret : String)
    (tr : Nat → HttpOutcome) (c : Int) (m : String)
    (hc : c ≠ 0) (h : tr 0 = .resp 200 (.fields c m)) :
    Robot.send ⟨rc, interval, secret⟩ ⟨none⟩ tr = ⟨.api c m, 1, []⟩ ∧
    ∀ (rc' interval' : Nat) (secret' : String) (ctx : Ctx)
      (tr' : Nat → HttpOutcome) (k : Nat),
      k + 1 < (Robot.send ⟨rc', interval', secret'⟩ ctx tr').attempts →
      ∃ s, doSend (tr' k) = some (.transport s) := by
  constructor
  · simp [Robot.send, sendLoop, Ctx.doneAt, Ctx.hitsDuringWait, pushWait, doSend, h, hc]
  · intro rc' interval' secret' ctx tr' k hk
    exact sendLoop_retried_transport rc' interval' ctx tr' (rc' + 1) 0 0 [] none k
      (Nat.zero_le k) hk

/-- C5 witness: the amended claim at retry count 2 and a transport whose
200 response carries errcode 7. -/
theorem claim_C5_witness :
    Robot.send ⟨2, 1, ""⟩ ⟨none⟩ (fun _ => .resp 200 (.fields 7 "bad")) =
      ⟨.api 7 "bad", 1, []⟩ :=
  (claim_C5_amended 2 1 "" (fun _ => .resp 200 (.fields 7 "bad")) 7 "bad"
    (by decide) rfl).1

/-- C7: when the context's deadline has already elapsed at call time,
Robot.send returns the context's own error unwrapped, with zero delivery
attempts and zero waits, whatever the transport would have answered; the
context check ends the retry sequence before anything else happens. -/
theorem claim_C7 (r : Robot) (ctx : Ctx) (tr : Nat → HttpOutcome)
    (h : ctx.doneAt 0 = true) :
    Robot.send r ctx tr = ⟨.ctxErr, 0, []⟩ := by
  simp [Robot.send, sendLoop, h]

/-- C7 witness: a context whose deadline 0 has elapsed at call time 0,
against a transport that would answer success. -/
theorem claim_C7_witness :
    (Ctx.mk (some 0)).doneAt 0 = true ∧
    Robot.send ⟨3, 1, ""⟩ ⟨some 0⟩ (fun _ => .resp 200 (.fields 0 "ok")) =
      ⟨.ctxErr, 0, []⟩ :=
  ⟨by decide, claim_C7 ⟨3, 1, ""⟩ ⟨some 0⟩ _ (by decide)⟩

/-- C6: Robot.calculateSign computes the base64 encoding of the
HMAC-SHA256 digest, keyed by the secret, of the string
"timestamp\nsecret", and it is pure and deterministic: two calls with
identical secret and timestamp give the identical signature string. -/
theorem claim_C6 (r : Robot) (ts : Int) :
    r.calculateSign ts = signSpec r.signSecret ts ∧
    ∀ (r' : Robot) (ts' : Int), r'.signSecret = r.signSecret → ts' = ts →
      r'.calculateSign ts' = r.calculateSign ts := by
  constructor
  · rfl
  · intro r' ts' hs ht
    simp [Robot.calculateSign, hs, ht]

/-- C6 witness: the signature equation and determinism at a concrete
secret and timestamp (two robots differing in every other field). -/
theorem claim_C6_witness :
    Robot.calculateSign ⟨3, 1, "sec"⟩ 1700000000000 = signSpec "sec" 1700000000000 ∧
    Robot.calculateSign ⟨0, 2, "sec"⟩ 1700000000000 =
      Robot.calculateSign ⟨3, 1, "sec"⟩ 1700000000000 :=
  ⟨(claim_C6 ⟨3, 1, "sec"⟩ 1700000000000).1,
   (claim_C6 ⟨3, 1, "sec"⟩ 1700000000000).2 ⟨0, 2, "sec"⟩ 1700000000000 rfl rfl⟩

/-- C9: a Text message built with AtAll and two mobile numbers added via
AtMobiles serializes, in any call order, to a body whose at.isAtAll is
true and whose at.atMobiles holds exactly those two numbers in insertion
order, with msgtype "text" and text.content the given content. -/
theorem claim_C9 (content m1 m2 : String) :
    ((TextBuilder.mk0 content).atAll.atMobilesAdd [m1, m2]).messageJson =
      (((TextBuilder.mk0 content).atMobilesAdd [m1, m2]).atAll).messageJson ∧
    ((TextBuilder.mk0 content).atAll.atMobilesAdd [m1, m2]).messageJson =
      ((((TextBuilder.mk0 content).atMobilesAdd [m1]).atAll).atMobilesAdd [m2]).messageJson ∧
    (((TextBuilder.mk0 content).atAll.atMobilesAdd [m1, m2]).messageJson.getField
        "msgtype" = some (.str "text")) ∧
    ((((TextBuilder.mk0 content).atAll.atMobilesAdd [m1, m2]).messageJson.getField
        "text").bind (fun j => j.getField "content") = some (.str content)) ∧
    ((((TextBuilder.mk0 content).atAll.atMobilesAdd [m1, m2]).messageJson.getField
        "at").bind (fun j => j.getField "isAtAll") = some (.bool true)) ∧
    ((((TextBuilder.mk0 content).atAll.atMobilesAdd [m1, m2]).messageJson.getField
        "at").bind (fun j => j.getField "atMobiles") = some (.arr [.str m1, .str m2])) := by
  refine ⟨rfl, rfl, ?_, ?_, ?_, ?_⟩ <;>
    simp [TextBuilder.mk0, TextBuilder.atAll, TextBuilder.atMobilesAdd,
      TextBuilder.messageJson, AtInfo.toJson, Json.getField, List.lookup]

/-- C10: an ActionCard on which both SingleButton (non-empty title) and
AddButton were called serializes, in either call order, with singleTitle
and singleURL and without any btns key; with neither called, none of
singleTitle, singleURL, btns appears. -/
theorem claim_C10 (title text st su bt bu : String) (h : st ≠ "") :
    ((((ActionCardBuilder.mk0 title text).singleButton st su).addButton bt bu).cardJson.getField
        "singleTitle" = some (.str st) ∧
     (((ActionCardBuilder.mk0 title text).singleButton st su).addButton bt bu).cardJson.getField
        "singleURL" = some (.str su) ∧
     (((ActionCardBuilder.mk0 title text).singleButton st su).addButton bt bu).cardJson.getField
        "btns" = none) ∧
    ((((ActionCardBuilder.mk0 title text).addButton bt bu).singleButton st su).cardJson.getField
        "singleTitle" = some (.str st) ∧
     (((ActionCardBuilder.mk0 title text).addButton bt bu).singleButton st su).cardJson.getField
        "singleURL" = some (.str su) ∧
     (((ActionCardBuilder.mk0 title text).addButton bt bu).singleButton st su).cardJson.getField
        "btns" = none) ∧
    ((ActionCardBuilder.mk0 title text).cardJson.getField "singleTitle" = none ∧
     (ActionCardBuilder.mk0 title text).cardJson.getField "singleURL" = none ∧
     (ActionCardBuilder.mk0 title text).cardJson.getField "btns" = none) := by
  refine ⟨⟨?_, ?_, ?_⟩, ⟨?_, ?_, ?_⟩, ?_, ?_, ?_⟩ <;>
    simp [ActionCardBuilder.mk0, ActionCardBuilder.singleButton,
      ActionCardBuilder.addButton, ActionCardBuilder.cardJson, Json.getField,
      List.lookup, h]

/-- C10 witness: the serialized card of a concrete ActionCard with both a
single button and an added button omits btns. -/
theorem claim_C10_witness :
    ("go" : String) ≠ "" ∧
    (((ActionCardBuilder.mk0 "t" "x").singleButton "go" "http").addButton "b" "u").cardJson.getField
      "btns" = none :=
  ⟨by decide, (claim_C10 "t" "x" "go" "http" "b" "u" (by decide)).1.2.2⟩

end Alert

namespace Config

/-- Reading a key just set gives the new value. -/
theorem Store.get_set_same (s : Store) (k : String) (v : Value) :
    s.set k v k = some v := by
  simp [Store.set]

/-- Reading another key is unchanged by a set. -/
theorem Store.get_set_other (s : Store) (k k' : String) (v : Value) (h : k' ≠ k) :
    s.set k v k' = s k' := by
  simp [Store.set, h]

/-- A pair overlay leaves keys it does not mention unchanged. -/
theorem applyPairs_notmem : ∀ (ps : List (String × Value)) (s : Store) (k : String),
    k ∉ ps.map Prod.fst → applyPairs ps s k = s k := by
  intro ps
  induction ps with
  | nil => intro s k _; rfl
  | cons p rest ih =>
    intro s k hk
    simp only [List.map_cons, List.mem_cons] at hk
    push_neg at hk
    show applyPairs rest (s.set p.1 p.2) k = s k
    rw [ih _ _ hk.2, Store.get_set_other _ _ _ _ hk.1]

/-- With distinct keys, a pair overlay resolves a mentioned key to its
pair's value. -/
theorem applyPairs_mem : ∀ (ps : List (String × Value)) (s : Store) (k : String) (v : Value),
    (ps.map Prod.fst).Nodup → (k, v) ∈ ps → applyPairs ps s k = some v := by
  intro ps
  induction ps with
  | nil => intro s k v _ h; cases h
  | cons p rest ih =>
    intro s k v hnd hmem
    simp only [List.map_cons, List.nodup_cons] at hnd
    rcases List.mem_cons.mp hmem with heq | hrest
    · subst heq
      show applyPairs rest (s.set k v) k = some v
      rw [applyPairs_notmem _ _ _ (by simpa using hnd.1), Store.get_set_same]
    · exact ih _ _ _ hnd.2 hrest

/-- The environment overlay leaves keys outside the table unchanged. -/
theorem applyEnv_notmem (env : String → Option String) :
    ∀ (entries : List (String × String)) (s : Store) (k : String),
      k ∉ entries.map Prod.snd → applyEnv env entries s k = s k := by
  intro entries
  induction entries with
  | nil => intro s k _; rfl
  | cons e rest ih =>
    intro s k hk
    simp only [List.map_cons, List.mem_cons] at hk
    push_neg at hk
    show applyEnv env rest _ k = s k
    rw [ih _ _ hk.2]
    cases env e.1 with
    | none => rfl
    | some v => exact Store.get_set_other _ _ _ _ hk.1

/-- With distinct target keys, the environment overlay resolves a tabled
key to its variable's value when set and leaves it unchanged otherwise. -/
theorem applyEnv_mem (env : String → Option String) :
    ∀ (entries : List (String × String)) (s : Store) (n k : String),
      (entries.map Prod.snd).Nodup → (n, k) ∈ entries →
      applyEnv env entries s k =
        (match env n with
         | some v => some (.str v)
         | none => s k) := by
  intro entries
  induction entries with
  | nil => intro s n k _ h; cases h
  | cons e rest ih =>
    intro s n k hnd hmem
    simp only [List.map_cons, List.nodup_cons] at hnd
    rcases List.mem_cons.mp hmem with heq | hrest
    · cases heq
      show applyEnv env rest _ k = _
      rw [applyEnv_notmem env _ _ _ (by simpa using hnd.1)]
      cases henv : env n with
      | none => rfl
      | some v => exact Store.get_set_same _ _ _
    · have hne : e.2 ≠ k := by
        intro h
        exact hnd.1 (h ▸ List.mem_map_of_mem Prod.snd hrest)
      show applyEnv env rest _ k = _
      rw [ih _ _ _ hnd.2 hrest]
      cases env e.1 with
      | none => rfl
      | some v =>
        cases env n with
        | some w => rfl
        | none => exact Store.get_set_other _ _ _ _ (Ne.symm hne)

end Config

namespace Config

/-- Seeding the defaults is the pair overlay of (tag, default) pairs. -/
theorem seedDefaults_eq (fields : List Field) :
    ∀ s : Store, seedDefaults fields s =
      applyPairs (fields.map fun f => (f.koanf, .str f.deflt)) s := by
  induction fields with
  | nil => intro s; rfl
  | cons f rest ih =>
    intro s
    show seedDefaults rest _ = _
    rw [ih]
    rfl

/-- The flag re-overlay leaves keys outside the field list unchanged. -/
theorem applyFieldFlags_notmem (fl : Flags) :
    ∀ (fields : List Field) (s : Store) (k : String),
      k ∉ fields.map Field.koanf → applyFieldFlags fl fields s k = s k := by
  intro fields
  induction fields with
  | nil => intro s k _; rfl
  | cons f rest ih =>
    intro s k hk
    simp only [List.map_cons, List.mem_cons] at hk
    push_neg at hk
    show applyFieldFlags fl rest _ k = s k
    rw [ih _ _ hk.2]
    cases fl.set f.koanf with
    | some v => exact Store.get_set_other _ _ _ _ hk.1
    | none =>
      by_cases hs : (s f.koanf).isSome
      · simp [hs]
      · simp only [hs, if_false, Bool.false_eq_true]
        exact Store.get_set_other _ _ _ _ hk.1

/-- With distinct tags, the flag re-overlay resolves a field's key to the
explicitly set flag value when there is one, to the store's existing
value otherwise, and to the flag's registered default only when the store
does not hold the key. -/
theorem applyFieldFlags_mem (fl : Flags) :
    ∀ (fields : List Field) (s : Store) (f : Field),
      (fields.map Field.koanf).Nodup → f ∈ fields →
      applyFieldFlags fl fields s f.koanf =
        (match fl.set f.koanf with
         | some v => some (.str v)
         | none =>
           match s f.koanf with
           | some w => some w
           | none => some (.str f.deflt)) := by
  intro fields
  induction fields with
  | nil => intro s f _ h; cases h
  | cons g rest ih =>
    intro s f hnd hmem
    simp only [List.map_cons, List.nodup_cons] at hnd
    rcases List.mem_cons.mp hmem with heq | hrest
    · subst heq
      show applyFieldFlags fl rest _ f.koanf = _
      rw [applyFieldFlags_notmem fl _ _ _ (by simpa using hnd.1)]
      cases hfs : fl.set f.koanf with
      | some v => exact Store.get_set_same _ _ _
      | none =>
        cases hs : s f.koanf with
        | some w => simp [hs]
        | none => simp [hs, Store.get_set_same]
    · have hne : g.koanf ≠ f.koanf := by
        intro h
        exact hnd.1 (h ▸ List.mem_map_of_mem Field.koanf hrest)
      have hagree :
          (match fl.set g.koanf with
           | some v => s.set g.koanf (.str v)
           | none =>
             if (s g.koanf).isSome then s else s.set g.koanf (.str g.deflt)) f.koanf
            = s f.koanf := by
        cases fl.set g.koanf with
        | some v => exact Store.get_set_other _ _ _ _ (Ne.symm hne)
        | none =>
          by_cases hs : (s g.koanf).isSome
          · simp [hs]
          · simp only [hs, if_false, Bool.false_eq_true]
            exact Store.get_set_other _ _ _ _ (Ne.symm hne)
      show applyFieldFlags fl rest _ f.koanf = _
      rw [ih _ _ hnd.2 hrest, hagree]

/-- Splitting characters free of '=' finds no value part. -/
theorem splitEq_no_eq : ∀ l : List Char, '=' ∉ l → splitEq l = (l, none) := by
  intro l
  induction l with
  | nil => intro _; rfl
  | cons c rest ih =>
    intro h
    simp only [List.mem_cons] at h
    push_neg at h
    have hc : c ≠ '=' := fun hcc => h.1 hcc.symm
    simp [splitEq, hc, ih h.2]

/-- toList distributes over string concatenation. -/
theorem strToList_append (s t : String) : (s ++ t).toList = s.toList ++ t.toList := by
  cases s
  cases t
  rfl

/-- A long flag --k carrying no inline value classifies as the flag name
k when k contains no '='. -/
theorem argNameVal_flag (k : String) (he : '=' ∉ k.toList) :
    argNameVal ("--" ++ k) = some (k, none) := by
  have h1 : ("--" ++ k).toList = '-' :: '-' :: k.toList := by
    rw [strToList_append]
    rfl
  have h2 : splitEq k.data = (k.data, none) := splitEq_no_eq _ he
  simp [argNameVal, h1, h2]

/-- Parsing a canonical flag-value pair for a known schema key records
the value and moves on. -/
theorem parseLoop_canonical_cons (keys : List String) (k v : String)
    (rest : List String) (fl : Flags)
    (hk : k ∈ keys) (hn : k ≠ "config") (he : '=' ∉ k.toList) :
    parseLoop keys (("--" ++ k) :: v :: rest) fl = parseLoop keys rest (fl.setVal k v) := by
  rw [parseLoop, argNameVal_flag k he]
  simp [hn, hk]

end Config

namespace Config

/-- Parsing the canonical argument list that passes, for each field with
a command-line source, the flag --key value, equals folding those
explicit sets over the flag state. -/
theorem parseLoop_canonical (keys : List String) (co : Field → Option String) :
    ∀ (fields0 : List Field) (fl : Flags),
      (∀ f ∈ fields0, f.koanf ∈ keys ∧ f.koanf ≠ "config" ∧ '=' ∉ f.koanf.toList) →
      parseLoop keys
          (fields0.flatMap fun f =>
            match co f with
            | some v => ["--" ++ f.koanf, v]
            | none => []) fl =
        fields0.foldl
          (fun fl f =>
            match co f with
            | some v => fl.setVal f.koanf v
            | none => fl) fl := by
  intro fields0
  induction fields0 with
  | nil => intro fl _; rfl
  | cons f rest ih =>
    intro fl hyp
    have hf := hyp f (List.mem_cons_self f rest)
    have hrest : ∀ g ∈ rest, g.koanf ∈ keys ∧ g.koanf ≠ "config" ∧ '=' ∉ g.koanf.toList :=
      fun g hg => hyp g (List.mem_cons_of_mem f hg)
    rw [List.flatMap_cons, List.foldl_cons]
    cases hco : co f with
    | none => simpa using ih fl hrest
    | some v =>
      rw [show (["--" ++ f.koanf, v] ++
            (rest.flatMap fun f =>
              match co f with
              | some v => ["--" ++ f.koanf, v]
              | none => [])) =
          ("--" ++ f.koanf) :: v ::
            (rest.flatMap fun f =>
              match co f with
              | some v => ["--" ++ f.koanf, v]
              | none => []) from rfl]
      rw [parseLoop_canonical_cons keys f.koanf v _ fl hf.1 hf.2.1 hf.2.2]
      exact ih _ hrest

end Config

namespace Config

/-- The canonical fold of explicit per-field sets never touches the
config flag. -/
theorem parseFold_configSet (co : Field → Option String) :
    ∀ (fields0 : List Field) (fl : Flags),
      (fields0.foldl
        (fun fl f =>
          match co f with
          | some v => fl.setVal f.koanf v
          | none => fl) fl).configSet = fl.configSet := by
  intro fields0
  induction fields0 with
  | nil => intro fl; rfl
  | cons f rest ih =>
    intro fl
    rw [List.foldl_cons, ih]
    cases co f with
    | some v => rfl
    | none => rfl

/-- The canonical fold leaves flags outside the field list unchanged. -/
theorem parseFold_set_notmem (co : Field → Option String) :
    ∀ (fields0 : List Field) (fl : Flags) (k : String),
      k ∉ fields0.map Field.koanf →
      (fields0.foldl
        (fun fl f =>
          match co f with
          | some v => fl.setVal f.koanf v
          | none => fl) fl).set k = fl.set k := by
  intro fields0
  induction fields0 with
  | nil => intro fl k _; rfl
  | cons f rest ih =>
    intro fl k hk
    simp only [List.map_cons, List.mem_cons] at hk
    push_neg at hk
    rw [List.foldl_cons, ih _ _ hk.2]
    cases co f with
    | some v => simp [Flags.setVal, hk.1]
    | none => rfl

/-- With distinct tags, the canonical fold records exactly the explicit
per-field source. -/
theorem parseFold_set_mem (co : Field → Option String) :
    ∀ (fields0 : List Field) (fl : Flags) (f : Field),
      (fields0.map Field.koanf).Nodup → f ∈ fields0 →
      (fields0.foldl
        (fun fl f =>
          match co f with
          | some v => fl.setVal f.koanf v
          | none => fl) fl).set f.koanf =
        (match co f with
         | some v => some v
         | none => fl.set f.koanf) := by
  intro fields0
  induction fields0 with
  | nil => intro fl f _ h; cases h
  | cons g rest ih =>
    intro fl f hnd hmem
    simp only [List.map_cons, List.nodup_cons] at hnd
    rcases List.mem_cons.mp hmem with heq | hrest
    · subst heq
      rw [List.foldl_cons, parseFold_set_notmem co rest _ _ (by simpa using hnd.1)]
      cases co f with
      | some v => simp [Flags.setVal]
      | none => rfl
    · have hne : g.koanf ≠ f.koanf := by
        intro h
        exact hnd.1 (h ▸ List.mem_map_of_mem Field.koanf hrest)
      rw [List.foldl_cons, ih _ _ hnd.2 hrest]
      cases co g with
      | some v => simp [Flags.setVal, Ne.symm hne]
      | none => rfl

/-- Joining a nonempty prefix strictly lengthens a path, so a join never
equals its second component. -/
theorem pathJoin_ne (a b : String) : pathJoin a b ≠ b := by
  intro h
  have hl := congrArg String.length h
  rw [pathJoin, String.length_append, String.length_append] at hl
  have hone : ("/" : String).length = 1 := rfl
  omega

/-- A well-formed schema passes the koanf-tag validity check. -/
theorem fieldsOk_of_WF (fields : List Field) (hwf : WF fields) :
    fieldsOk fields = true := by
  rw [fieldsOk, List.all_eq_true]
  intro f hf
  have := hwf.tagsOk f hf
  simp [this.1, this.2]

end Config

namespace Config

/-- C2: in the final CLI re-overlay, a flag the user explicitly supplied
overrides the merged store with its value; a flag left at its default
(not explicitly set) does not replace a value the store already holds
from file, environment or defaults. -/
theorem claim_C2 (fields : List Field) (fl : Flags) (s : Store) (f : Field)
    (hmem : f ∈ fields) (hnd : (fields.map Field.koanf).Nodup)
    (hcfg : f.koanf ≠ "config") :
    (fl.set f.koanf = none → ∀ v, s f.koanf = some v →
      applyPosflag fields fl s f.koanf = some v) ∧
    (∀ v, fl.set f.koanf = some v →
      applyPosflag fields fl s f.koanf = some (.str v)) := by
  have hagree :
      (match fl.configSet with
       | some xs => s.set "config" (.strList xs)
       | none =>
         if (s "config").isSome then s
         else s.set "config" (.strList [DEFAULT_CONFIG])) f.koanf = s f.koanf := by
    cases fl.configSet with
    | some xs => exact Store.get_set_other _ _ _ _ hcfg
    | none =>
      by_cases hs : (s "config").isSome
      · simp [hs]
      · simp only [hs, if_false, Bool.false_eq_true]
        exact Store.get_set_other _ _ _ _ hcfg
  constructor
  · intro hnone v hv
    show applyFieldFlags fl fields _ f.koanf = some v
    rw [applyFieldFlags_mem fl fields _ f hnd hmem, hnone, hagree, hv]
  · intro v hsome
    show applyFieldFlags fl fields _ f.koanf = some (.str v)
    rw [applyFieldFlags_mem fl fields _ f hnd hmem, hsome]

/-- C2 witness: with the store holding a file-provided value, an unset
flag leaves it in place and an explicitly set flag overrides it. -/
theorem claim_C2_witness :
    applyPosflag [⟨"Name", "name", "default-name"⟩] Flags.empty
        (Store.empty.set "name" (.str "file-name")) "name" = some (.str "file-name") ∧
    applyPosflag [⟨"Name", "name", "default-name"⟩] (Flags.empty.setVal "name" "cli-name")
        (Store.empty.set "name" (.str "file-name")) "name" = some (.str "cli-name") :=
  ⟨(claim_C2 [⟨"Name", "name", "default-name"⟩] Flags.empty
      (Store.empty.set "name" (.str "file-name")) ⟨"Name", "name", "default-name"⟩
      (by decide) (by decide) (by decide)).1 rfl _ (by decide),
   (claim_C2 [⟨"Name", "name", "default-name"⟩] (Flags.empty.setVal "name" "cli-name")
      (Store.empty.set "name" (.str "file-name")) ⟨"Name", "name", "default-name"⟩
      (by decide) (by decide) (by decide)).2 "cli-name" (by decide)⟩

/-- C4 counterexample: with CONFIG=env.toml in the environment and
--config=cli.toml passed on the command line (the name=value form), the
resolver loads env.toml, not cli.toml: the literal-token scan for
"--config" misses the = form, so the environment override wins over the
explicitly passed flag. -/
theorem claim_C4_counterexample :
    (loadConfig [⟨"Name", "name", "default-name"⟩]
        (fun v => if v = "CONFIG" then some "env.toml" else none)
        ["--config=cli.toml"] ["prog", "--config=cli.toml"]
        (fun p =>
          if p = "/w/env.toml" then .file (some [("name", .str "env-file")])
          else if p = "/w/cli.toml" then .file (some [("name", .str "cli-file")])
          else .missing)
        "/w" "/e").conf = some [("name", .str "env-file")] ∧
    (loadConfig [⟨"Name", "name", "default-name"⟩]
        (fun v => if v = "CONFIG" then some "env.toml" else none)
        ["--config=cli.toml"] ["prog", "--config=cli.toml"]
        (fun p =>
          if p = "/w/env.toml" then .file (some [("name", .str "env-file")])
          else if p = "/w/cli.toml" then .file (some [("name", .str "cli-file")])
          else .missing)
        "/w" "/e").conf ≠ some [("name", .str "cli-file")] := by
  decide

/-- C4 (amended): the effective config file list is the parsed --config
flag value (default config.toml) when the literal token --config occurs
among the process arguments — so only the space-separated form
"--config value" takes priority over the environment; otherwise a CONFIG
environment override, held in the store's config key, wins and is split
on commas; otherwise the flag value (default config.toml) is used. -/
theorem claim_C4_amended (fl : Flags) (osArgs : List String) (s : Store) :
    ("--config" ∈ osArgs →
      effectiveConfigFiles fl osArgs s = fl.configSet.getD [DEFAULT_CONFIG]) ∧
    ("--config" ∉ osArgs → ∀ v, s "config" = some (.str v) →
      effectiveConfigFiles fl osArgs s = splitOnChar ',' v) ∧
    ("--config" ∉ osArgs → s "config" = none →
      effectiveConfigFiles fl osArgs s = fl.configSet.getD [DEFAULT_CONFIG]) := by
  refine ⟨?_, ?_, ?_⟩
  · intro h
    simp [effectiveConfigFiles, h]
  · intro h v hv
    simp [effectiveConfigFiles, h, hv, koanfString]
  · intro h hv
    simp [effectiveConfigFiles, h, hv]

/-- C4 witness: the amended claim's three cases at concrete inputs — the
space-separated flag wins, the environment value is comma-split, and the
default applies when neither is present. -/
theorem claim_C4_witness :
    effectiveConfigFiles ⟨fun _ => none, some ["a.toml"]⟩ ["prog", "--config", "a.toml"]
        Store.empty = ["a.toml"] ∧
    effectiveConfigFiles ⟨fun _ => none, none⟩ ["prog"]
        (Store.empty.set "config" (.str "x.toml,y.toml")) = splitOnChar ',' "x.toml,y.toml" ∧
    effectiveConfigFiles ⟨fun _ => none, none⟩ ["prog"] Store.empty = ["config.toml"] :=
  ⟨(claim_C4_amended ⟨fun _ => none, some ["a.toml"]⟩ ["prog", "--config", "a.toml"]
      Store.empty).1 (by decide),
   (claim_C4_amended ⟨fun _ => none, none⟩ ["prog"]
      (Store.empty.set "config" (.str "x.toml,y.toml"))).2.1 (by decide) "x.toml,y.toml"
      (by decide),
   (claim_C4_amended ⟨fun _ => none, none⟩ ["prog"] Store.empty).2.2 (by decide) rfl⟩

end Config

namespace Config

/-- pathIsFile answers exactly whether the path stats as a regular
file. -/
theorem pathIsFile_fst (fs : FileSystem) (p : String) :
    (pathIsFile fs p).1 = (fs p).isFile := by
  cases h : fs p <;> simp [pathIsFile, FStat.isFile, h]

/-- When nothing stats as a regular file, path resolution leaves every
candidate unchanged. -/
theorem resolvePath_notfile (fs : FileSystem) (cwd exeDir : String) (c : String)
    (hfs : ∀ p, (fs p).isFile = false) :
    (resolvePath fs cwd exeDir c).1 = c := by
  unfold resolvePath
  by_cases habs : pathIsAbs c
  · simp [habs]
  · simp [habs, pathIsFile_fst, hfs]

/-- When nothing stats as a regular file, the file loop keeps the store,
keeps every earlier log event, and logs a skip notice for every
candidate. -/
theorem applyFiles_allSkip (fs : FileSystem) (cwd exeDir : String)
    (hfs : ∀ p, (fs p).isFile = false) :
    ∀ (cs : List String) (s : Store) (logs : List LogEvent),
      (applyFiles fs cwd exeDir cs s logs).1 = some s ∧
      (∀ e ∈ logs, e ∈ (applyFiles fs cwd exeDir cs s logs).2) ∧
      (∀ c ∈ cs, skipEvent c ∈ (applyFiles fs cwd exeDir cs s logs).2) := by
  intro cs
  induction cs with
  | nil =>
    intro s logs
    exact ⟨rfl, fun e he => he, fun c hc => absurd hc (List.not_mem_nil c)⟩
  | cons c rest ih =>
    intro s logs
    have hp : (pathIsFile fs (resolvePath fs cwd exeDir c).1).1 = false := by
      rw [pathIsFile_fst]
      exact hfs _
    have hstep :
        applyFiles fs cwd exeDir (c :: rest) s logs =
          applyFiles fs cwd exeDir rest s
            (logs ++ (resolvePath fs cwd exeDir c).2 ++
              (pathIsFile fs (resolvePath fs cwd exeDir c).1).2 ++
              [skipEvent (resolvePath fs cwd exeDir c).1]) := by
      show (if (pathIsFile fs (resolvePath fs cwd exeDir c).1).1 then _ else _) = _
      rw [hp]
      simp
    rw [hstep]
    obtain ⟨h1, h2, h3⟩ := ih s
      (logs ++ (resolvePath fs cwd exeDir c).2 ++
        (pathIsFile fs (resolvePath fs cwd exeDir c).1).2 ++
        [skipEvent (resolvePath fs cwd exeDir c).1])
    refine ⟨h1, ?_, ?_⟩
    · intro e he
      exact h2 e (by simp [he])
    · intro c' hc'
      rcases List.mem_cons.mp hc' with heq | hrest
      · subst heq
        have hr := resolvePath_notfile fs cwd exeDir c' hfs
        exact h2 _ (by rw [hr]; simp)
      · exact h3 c' hrest

end Config

namespace Config

/-- C8: when no candidate config path stats as a regular file, loadConfig
does not fail — the resolved configuration is exactly the one of a run
with no files at all (lower-precedence values kept) — and every candidate
is skipped with a notice at info level for the default path config.toml
and warn level otherwise. -/
theorem claim_C8 (fields : List Field) (env : String → Option String)
    (systemArgs osArgs : List String) (fs : FileSystem) (cwd exeDir : String)
    (htags : fieldsOk fields = true)
    (hfs : ∀ p, (fs p).isFile = false) :
    (loadConfig fields env systemArgs osArgs fs cwd exeDir).conf.isSome ∧
    (loadConfig fields env systemArgs osArgs fs cwd exeDir).conf =
      (loadConfig fields env systemArgs osArgs (fun _ => FStat.missing) cwd exeDir).conf ∧
    ∀ c ∈ effectiveConfigFiles (parseLoop (fields.map Field.koanf) systemArgs Flags.empty)
        osArgs (applyEnv env (envToKey fields) (seedDefaults fields Store.empty)),
      skipEvent c ∈ (loadConfig fields env systemArgs osArgs fs cwd exeDir).logs := by
  obtain ⟨h1, _h2, h3⟩ :=
    applyFiles_allSkip fs cwd exeDir hfs
      (effectiveConfigFiles (parseLoop (fields.map Field.koanf) systemArgs Flags.empty)
        osArgs (applyEnv env (envToKey fields) (seedDefaults fields Store.empty)))
      (applyEnv env (envToKey fields) (seedDefaults fields Store.empty)) []
  obtain ⟨h1', _h2', _h3'⟩ :=
    applyFiles_allSkip (fun _ => FStat.missing) cwd exeDir (fun _ => rfl)
      (effectiveConfigFiles (parseLoop (fields.map Field.koanf) systemArgs Flags.empty)
        osArgs (applyEnv env (envToKey fields) (seedDefaults fields Store.empty)))
      (applyEnv env (envToKey fields) (seedDefaults fields Store.empty)) []
  simp only [loadConfig, htags, Bool.not_true, if_false, Bool.false_eq_true]
  rcases happ : applyFiles fs cwd exeDir
      (effectiveConfigFiles (parseLoop (fields.map Field.koanf) systemArgs Flags.empty)
        osArgs (applyEnv env (envToKey fields) (seedDefaults fields Store.empty)))
      (applyEnv env (envToKey fields) (seedDefaults fields Store.empty)) [] with ⟨o, lgs⟩
  rcases happ' : applyFiles (fun _ => FStat.missing) cwd exeDir
      (effectiveConfigFiles (parseLoop (fields.map Field.koanf) systemArgs Flags.empty)
        osArgs (applyEnv env (envToKey fields) (seedDefaults fields Store.empty)))
      (applyEnv env (envToKey fields) (seedDefaults fields Store.empty)) [] with ⟨o', lgs'⟩
  rw [happ] at h1 h3
  rw [happ'] at h1'
  simp only at h1 h1' h3
  subst h1
  subst h1'
  exact ⟨rfl, rfl, h3⟩

end Config

namespace Config

/-- C8 witness: a schema with one field, no files on disk — resolution
succeeds and the default path's skip is logged at info level. -/
theorem claim_C8_witness :
    (loadConfig [⟨"Name", "name", "default-name"⟩] (fun _ => none) [] ["prog"]
        (fun _ => FStat.missing) "/w" "/e").conf.isSome ∧
    skipEvent "config.toml" ∈
      (loadConfig [⟨"Name", "name", "default-name"⟩] (fun _ => none) [] ["prog"]
        (fun _ => FStat.missing) "/w" "/e").logs :=
  ⟨(claim_C8 [⟨"Name", "name", "default-name"⟩] (fun _ => none) [] ["prog"]
      (fun _ => FStat.missing) "/w" "/e" (by decide) (fun _ => rfl)).1,
   (claim_C8 [⟨"Name", "name", "default-name"⟩] (fun _ => none) [] ["prog"]
      (fun _ => FStat.missing) "/w" "/e" (by decide) (fun _ => rfl)).2.2
     "config.toml" (by decide)⟩

/-- C1: with a well-formed schema, loadConfig resolves every field to the
value of the highest-precedence source defining its lookup key, in the
order CommandLine > File > Environment > Defaults, for every combination
of sources per field (eo: the field's environment variable, fo: the
key's entry in the loaded TOML file, co: the field's flag passed as
"--key value" on the command line). -/
theorem claim_C1 (fields : List Field) (hwf : WF fields)
    (env : String → Option String) (eo co : Field → Option String)
    (fo : Field → Option Value)
    (henvCfg : env "CONFIG" = none)
    (henv : ∀ f ∈ fields, env (strToUpper f.name) = eo f)
    (fileContent : List (String × Value))
    (hfileNd : (fileContent.map Prod.fst).Nodup)
    (hfile : ∀ f ∈ fields,
      match fo f with
      | some v => (f.koanf, v) ∈ fileContent
      | none => f.koanf ∉ fileContent.map Prod.fst)
    (cwd exeDir : String) (fs : FileSystem)
    (hfs : ∀ p, fs p =
      if p = pathJoin cwd DEFAULT_CONFIG then FStat.file (some fileContent)
      else FStat.missing)
    (osArgs : List String) :
    (loadConfig fields env
        (fields.flatMap fun f =>
          match co f with
          | some v => ["--" ++ f.koanf, v]
          | none => []) osArgs fs cwd exeDir).conf =
      some (fields.map fun f =>
        (f.koanf, precedenceValue f.deflt (eo f) (fo f) (co f))) := by
  have htags := fieldsOk_of_WF fields hwf
  have htagsNd := hwf.tagsNodup
  -- the parsed flags are exactly the canonical per-field explicit sets
  have hfl : parseLoop (fields.map Field.koanf)
      (fields.flatMap fun f =>
        match co f with
        | some v => ["--" ++ f.koanf, v]
        | none => []) Flags.empty =
      fields.foldl
        (fun fl f =>
          match co f with
          | some v => fl.setVal f.koanf v
          | none => fl) Flags.empty :=
    parseLoop_canonical (fields.map Field.koanf) co fields Flags.empty
      (fun f hf => ⟨List.mem_map_of_mem Field.koanf hf, (hwf.tagsOk f hf).2,
        hwf.tagsNoEq f hf⟩)
  have hconfigSet : (parseLoop (fields.map Field.koanf)
      (fields.flatMap fun f =>
        match co f with
        | some v => ["--" ++ f.koanf, v]
        | none => []) Flags.empty).configSet = none := by
    rw [hfl, parseFold_configSet]
    rfl
  -- the env-table target keys are distinct
  have hsndNd : ((envToKey fields).map Prod.snd).Nodup := by
    have hmap : (envToKey fields).map Prod.snd = "config" :: fields.map Field.koanf := by
      simp [envToKey, List.map_map]
    rw [hmap, List.nodup_cons]
    exact ⟨fun hmem => by
      obtain ⟨f, hf, hfe⟩ := List.mem_map.mp hmem
      exact (hwf.tagsOk f hf).2 hfe, htagsNd⟩
  -- the seeded defaults hold every field's default
  have hseedNd : ((fields.map fun f => (f.koanf, Value.str f.deflt)).map Prod.fst).Nodup := by
    have : (fields.map fun f => (f.koanf, Value.str f.deflt)).map Prod.fst =
        fields.map Field.koanf := by
      simp [List.map_map]
    rw [this]
    exact htagsNd
  have hseed : ∀ f ∈ fields,
      seedDefaults fields Store.empty f.koanf = some (.str f.deflt) := by
    intro f hf
    rw [seedDefaults_eq]
    exact applyPairs_mem _ _ _ _ hseedNd
      (List.mem_map_of_mem (fun f => (f.koanf, Value.str f.deflt)) hf)
  -- the store after the environment overlay, at each field's key
  have hs1 : ∀ f ∈ fields,
      applyEnv env (envToKey fields) (seedDefaults fields Store.empty) f.koanf =
        (match eo f with
         | some v => some (.str v)
         | none => some (.str f.deflt)) := by
    intro f hf
    have hmem : (strToUpper f.name, f.koanf) ∈ envToKey fields :=
      List.mem_cons_of_mem _ (List.mem_map_of_mem (fun f => (strToUpper f.name, f.koanf)) hf)
    rw [applyEnv_mem env (envToKey fields) _ (strToUpper f.name) f.koanf hsndNd hmem,
      henv f hf]
    cases eo f with
    | some v => rfl
    | none => exact hseed f hf
  -- the config key is untouched before the file loop
  have hs1config : applyEnv env (envToKey fields) (seedDefaults fields Store.empty)
      "config" = none := by
    have hmem : ("CONFIG", "config") ∈ envToKey fields := List.mem_cons_self _ _
    rw [applyEnv_mem env (envToKey fields) _ "CONFIG" "config" hsndNd hmem, henvCfg]
    rw [seedDefaults_eq]
    rw [applyPairs_notmem]
    · rfl
    · intro hmem'
      have : "config" ∈ fields.map Field.koanf := by
        simpa [List.map_map] using hmem'
      obtain ⟨f, hf, hfe⟩ := List.mem_map.mp this
      exact (hwf.tagsOk f hf).2 hfe
  -- the effective file list is the default path
  have hcfiles : effectiveConfigFiles
      (parseLoop (fields.map Field.koanf)
        (fields.flatMap fun f =>
          match co f with
          | some v => ["--" ++ f.koanf, v]
          | none => []) Flags.empty) osArgs
      (applyEnv env (envToKey fields) (seedDefaults fields Store.empty)) =
      [DEFAULT_CONFIG] := by
    by_cases hmem : "--config" ∈ osArgs
    · simp [effectiveConfigFiles, hmem, hconfigSet]
    · simp [effectiveConfigFiles, hmem, hconfigSet, hs1config]
  -- the file loop loads exactly the TOML content over the env-merged store
  have hfs1 : fs (pathJoin cwd DEFAULT_CONFIG) = .file (some fileContent) := by
    rw [hfs]
    simp
  have hfs2 : fs (pathJoin exeDir (pathJoin cwd DEFAULT_CONFIG)) = .missing := by
    rw [hfs]
    simp [pathJoin_ne]
  have habs : pathIsAbs DEFAULT_CONFIG = false := rfl
  have happly : ∀ s : Store, applyFiles fs cwd exeDir [DEFAULT_CONFIG] s [] =
      (some (applyPairs fileContent s), []) := by
    intro s
    simp [applyFiles, resolvePath, habs, pathIsFile, hfs1, hfs2]
  simp only [loadConfig, htags, Bool.not_true, if_false, Bool.false_eq_true, hcfiles,
    happly]
  -- the final store value at each field's key is the precedence pick
  congr 1
  apply List.map_congr_left
  intro f hf
  have hflset : (parseLoop (fields.map Field.koanf)
      (fields.flatMap fun f =>
        match co f with
        | some v => ["--" ++ f.koanf, v]
        | none => []) Flags.empty).set f.koanf =
      (match co f with
       | some v => some v
       | none => none) := by
    rw [hfl, parseFold_set_mem co fields Flags.empty f htagsNd hf]
    cases co f with
    | some v => rfl
    | none => rfl
  have hs2 : applyPairs fileContent
      (applyEnv env (envToKey fields) (seedDefaults fields Store.empty)) f.koanf =
      (match fo f with
       | some v => some v
       | none =>
         match eo f with
         | some v => some (.str v)
         | none => some (.str f.deflt)) := by
    have hff := hfile f hf
    cases hfo : fo f with
    | some v =>
      rw [hfo] at hff
      rw [applyPairs_mem _ _ _ _ hfileNd hff]
    | none =>
      rw [hfo] at hff
      rw [applyPairs_notmem _ _ _ hff]
      exact hs1 f hf
  have hcfg : f.koanf ≠ "config" := (hwf.tagsOk f hf).2
  have hagree :
      (match (parseLoop (fields.map Field.koanf)
          (fields.flatMap fun f =>
            match co f with
            | some v => ["--" ++ f.koanf, v]
            | none => []) Flags.empty).configSet with
       | some xs =>
         (applyPairs fileContent
           (applyEnv env (envToKey fields) (seedDefaults fields Store.empty))).set
           "config" (.strList xs)
       | none =>
         if ((applyPairs fileContent
             (applyEnv env (envToKey fields) (seedDefaults fields Store.empty)))
             "config").isSome then
           applyPairs fileContent
             (applyEnv env (envToKey fields) (seedDefaults fields Store.empty))
         else
           (applyPairs fileContent
             (applyEnv env (envToKey fields) (seedDefaults fields Store.empty))).set
             "config" (.strList [DEFAULT_CONFIG])) f.koanf =
      applyPairs fileContent
        (applyEnv env (envToKey fields) (seedDefaults fields Store.empty)) f.koanf := by
    cases (parseLoop (fields.map Field.koanf)
        (fields.flatMap fun f =>
          match co f with
          | some v => ["--" ++ f.koanf, v]
          | none => []) Flags.empty).configSet with
    | some xs => exact Store.get_set_other _ _ _ _ hcfg
    | none =>
      by_cases hsome : ((applyPairs fileContent
          (applyEnv env (envToKey fields) (seedDefaults fields Store.empty)))
          "config").isSome
      · simp [hsome]
      · simp only [hsome, if_false, Bool.false_eq_true]
        exact Store.get_set_other _ _ _ _ hcfg
  show (f.koanf, _) = (f.koanf, _)
  congr 1
  show ((applyFieldFlags _ fields _) f.koanf).getD (.str f.deflt) = _
  rw [applyFieldFlags_mem _ fields _ f htagsNd hf, hflset, hagree, hs2]
  cases co f with
  | some v => rfl
  | none =>
    cases fo f with
    | some v => rfl
    | none =>
      cases eo f with
      | some v => rfl
      | none => rfl

end Config

namespace Config

/-- C1 witness: one field with default "default-name", environment
NAME=env-name, a config.toml entry name = "config-name", and the flag
--name cli-name all set at once — the command line wins. -/
theorem claim_C1_witness :
    (loadConfig [⟨"Name", "name", "default-name"⟩]
        (fun v => if v = "NAME" then some "env-name" else none)
        ["--name", "cli-name"] ["prog", "--name", "cli-name"]
        (fun p =>
          if p = pathJoin "/w" DEFAULT_CONFIG then
            FStat.file (some [("name", .str "config-name")])
          else FStat.missing)
        "/w" "/e").conf = some [("name", .str "cli-name")] :=
  claim_C1 [⟨"Name", "name", "default-name"⟩]
    (by refine ⟨?_, ?_, ?_, ?_, ?_⟩ <;> decide)
    (fun v => if v = "NAME" then some "env-name" else none)
    (fun _ => some "env-name") (fun _ => some "cli-name")
    (fun _ => some (.str "config-name"))
    (by decide) (by decide)
    [("name", .str "config-name")] (by decide) (by decide)
    "/w" "/e"
    (fun p =>
      if p = pathJoin "/w" DEFAULT_CONFIG then
        FStat.file (some [("name", .str "config-name")])
      else FStat.missing)
    (fun _ => rfl) ["prog", "--name", "cli-name"]

end Config

namespace Crypto

set_option maxRecDepth 100000 in
/-- Sanity check of the SHA-256 embedding against the standard test
vector for "abc". -/
theorem sha256_abc_vector :
    sha256 (utf8Bytes "abc") =
      [186, 120, 22, 191, 143, 1, 207, 234,
       65, 65, 64, 222, 93, 174, 34, 35,
       176, 3, 97, 163, 150, 23, 122, 156,
       180, 16, 255, 97, 242, 0, 21, 173] := by
  decide

end Crypto
